import Mathlib

/-!
Verification development for the Transact (SplitSmart) expense-splitting
repository.  The client-side mutation handlers
(`src/components/add-expense-dialog.tsx`, `src/components/dashboard.tsx`
second `EditExpenseDialog`, `src/components/expense-card.tsx`, the
`AddMemberDialog` and `CreateGroupDialog` components) and the database layer
(`src/scripts/001-create-tables.sql`: table shapes, `DECIMAL(10,2)` columns,
`ON DELETE CASCADE`, the `calculate_user_balance` SQL function) are embedded
shallowly: the database is a record of lists of rows, each handler is a pure
state-transition function, and JavaScript number arithmetic on currency
values is modelled by exact rational arithmetic (`ℚ`).  A `parseFloat`
result that may be `NaN` is modelled as `Option ℚ` (`none` = `NaN`).
-/

namespace Transact

/-- Floor of a rational number, computed from its numerator and denominator
with flooring integer division. -/
def floorQ (q : ℚ) : ℤ := Int.fdiv q.num q.den

/-- Rounding to the nearest integer, halves away from zero: the rounding
PostgreSQL applies when a value is stored into a `NUMERIC`/`DECIMAL` column. -/
def roundHalfAwayFromZero (q : ℚ) : ℤ :=
  if 0 ≤ q then floorQ (q + 1/2) else -(floorQ (-q + 1/2))

/-- Quantisation applied by the `DECIMAL(10,2)` columns of
`src/scripts/001-create-tables.sql` (`expenses.amount`,
`expense_splits.amount`): the committed value is the inserted value rounded
to two fractional digits, halves away from zero. -/
def roundCent (q : ℚ) : ℚ := (roundHalfAwayFromZero (q * 100) : ℚ) / 100

/-- A row of the `users` table (`src/scripts/001-create-tables.sql` lines
5-12; only the columns the embedded handlers read). -/
structure UserRow where
  id : String
  email : String
  name : String
deriving DecidableEq

/-- A row of the `groups` table (lines 15-22). -/
structure GroupRow where
  id : String
  name : String
  created_by : String
deriving DecidableEq

/-- A row of the `expenses` table (lines 34-44). -/
structure Expense where
  id : String
  group_id : String
  paid_by : String
  description : String
  amount : ℚ
  category : String
  date : String
  updated_at : String
deriving DecidableEq

/-- A row of the `expense_splits` table (lines 47-53). -/
structure SplitRow where
  expense_id : String
  user_id : String
  amount : ℚ
deriving DecidableEq

/-- The committed database state: the five tables the expense/balance logic
touches.  `group_members` rows are `(group_id, user_id)` pairs (lines
25-31). -/
structure LedgerState where
  users : List UserRow
  groups : List GroupRow
  group_members : List (String × String)
  expenses : List Expense
  expense_splits : List SplitRow
deriving DecidableEq

/-- The inner join `expense_splits es JOIN expenses e ON e.id =
es.expense_id` used by the `calculate_user_balance` SQL function
(`src/scripts/001-create-tables.sql` lines 193-196). -/
def sqlJoin (splits : List SplitRow) (exps : List Expense) :
    List (SplitRow × Expense) :=
  splits.flatMap (fun s =>
    (exps.filter (fun e => decide (e.id = s.expense_id))).map (fun e => (s, e)))

/-- The `calculate_user_balance(p_user_id, p_group_id)` SQL function
(`src/scripts/001-create-tables.sql` lines 181-200): `total_paid` sums the
amounts of the user's expenses in the group, `total_owed` sums the amounts
of the user's split rows joined to expenses of the group, and the result is
`total_paid - total_owed`. -/
def calculate_user_balance (st : LedgerState) (p_user_id p_group_id : String) : ℚ :=
  let total_paid :=
    ((st.expenses.filter
        (fun e => decide (e.paid_by = p_user_id ∧ e.group_id = p_group_id))).map
      Expense.amount).sum
  let total_owed :=
    (((sqlJoin st.expense_splits st.expenses).filter
        (fun r => decide (r.1.user_id = p_user_id ∧ r.2.group_id = p_group_id))).map
      (fun r => r.1.amount)).sum
  total_paid - total_owed

/-- The group of the expense a split row points at, resolved by key lookup. -/
def expenseGroupOf (exps : List Expense) (eid : String) : Option String :=
  (exps.find? (fun e => decide (e.id = eid))).map Expense.group_id

/-- Modelled from the spec (§4.4 Balance Engine): `balance = Σ(amount of
expenses where paidBy == user, group == group) − Σ(amount of splits where
user == user, expense.group == group)`, the split sum reading each split's
expense through a key lookup. -/
def balanceSpec (st : LedgerState) (u g : String) : ℚ :=
  ((st.expenses.filter
      (fun e => decide (e.paid_by = u ∧ e.group_id = g))).map Expense.amount).sum
  - ((st.expense_splits.filter
      (fun s => decide (s.user_id = u ∧ expenseGroupOf st.expenses s.expense_id = some g))).map
    SplitRow.amount).sum

/-- The two split modes offered by `AddExpenseDialog`
(`src/components/add-expense-dialog.tsx` line 56). -/
inductive SplitType where
  | equal
  | custom
deriving DecidableEq

/-- Equal-mode split computation (`src/components/add-expense-dialog.tsx`
lines 86-91): `splitAmount = expenseAmount / selectedMembers.length`, the
same value for every selected member, by native division. -/
def equalSplits (expenseAmount : ℚ) (selectedMembers : List String) :
    List (String × ℚ) :=
  selectedMembers.map (fun m => (m, expenseAmount / (selectedMembers.length : ℚ)))

/-- `Number.parseFloat(customSplits[memberId]) || 0` (lines 95 and 110): a
missing or unparseable entry (modelled `none`) contributes `0`; a parsed
value contributes itself (a parsed `0` is falsy in JavaScript and also falls
through to `0`, the same result). -/
def parseOrZero (v : Option ℚ) : ℚ := v.getD 0

/-- The declared custom total (lines 94-96): the reduce of
`parseFloat(customSplits[memberId]) || 0` over the selected members. -/
def customTotal (selectedMembers : List String)
    (customSplits : String → Option ℚ) : ℚ :=
  (selectedMembers.map (fun m => parseOrZero (customSplits m))).sum

/-- The custom split rows built on lines 108-111: one per selected member,
amount `parseFloat(customSplits[memberId]) || 0`. -/
def customRows (selectedMembers : List String)
    (customSplits : String → Option ℚ) : List (String × ℚ) :=
  selectedMembers.map (fun m => (m, parseOrZero (customSplits m)))

/-- The form data of one `AddExpenseDialog.handleSubmit` run.  `amountField`
is the `Number.parseFloat(amount)` result, `none` modelling `NaN`. -/
structure AddExpenseInput where
  groupId : String
  paidBy : String
  description : String
  category : String
  date : String
  amountField : Option ℚ
  splitType : SplitType
  selectedMembers : List String
  customSplits : String → Option ℚ

/-- How one `AddExpenseDialog.handleSubmit` run ended. -/
inductive AddExpenseOutcome where
  | invalidAmount
  | splitMismatch
  | expenseInsertError
  | splitsInsertError
  | added
deriving DecidableEq

/-- `AddExpenseDialog.handleSubmit` (`src/components/add-expense-dialog.tsx`
lines 60-161).  Validation: reject `NaN` or non-positive amounts (lines
72-80); in custom mode reject when `Math.abs(totalCustom - expenseAmount) >
0.01` (line 98).  Then two separate inserts with no enclosing transaction:
first the expense row (lines 115-130, throwing leaves nothing written),
then the split rows (lines 133-141, throwing leaves the already committed
expense row in place).  The two Booleans inject a store-level failure of
the corresponding insert.  Committed amounts pass through the
`DECIMAL(10,2)` quantisation of the schema. -/
def addExpenseSubmit (st : LedgerState) (inp : AddExpenseInput)
    (newExpenseId now : String) (expenseInsertFails splitsInsertFails : Bool) :
    LedgerState × AddExpenseOutcome :=
  match inp.amountField with
  | none => (st, .invalidAmount)
  | some expenseAmount =>
    if expenseAmount ≤ 0 then (st, .invalidAmount)
    else
      let splitsComputed : Option (List (String × ℚ)) :=
        match inp.splitType with
        | .equal => some (equalSplits expenseAmount inp.selectedMembers)
        | .custom =>
          if |customTotal inp.selectedMembers inp.customSplits - expenseAmount| > 1/100
          then none
          else some (customRows inp.selectedMembers inp.customSplits)
      match splitsComputed with
      | none => (st, .splitMismatch)
      | some splits =>
        if expenseInsertFails then (st, .expenseInsertError)
        else
          let newExpense : Expense :=
            ⟨newExpenseId, inp.groupId, inp.paidBy, inp.description,
             roundCent expenseAmount, inp.category, inp.date, now⟩
          let st1 := { st with expenses := st.expenses ++ [newExpense] }
          if splitsInsertFails then (st1, .splitsInsertError)
          else
            let st2 := { st1 with
              expense_splits := st1.expense_splits ++
                splits.map (fun p => SplitRow.mk newExpenseId p.1 (roundCent p.2)) }
            (st2, .added)

/-- The expense the `EditExpenseDialog` holds in its props
(`src/components/dashboard.tsx` lines 425-440): the row fields plus the
nested split rows in their fetched order. -/
structure ClientExpense where
  id : String
  description : String
  amount : ℚ
  category : String
  date : String
  splits : List (String × ℚ)
deriving DecidableEq

/-- The `UPDATE expenses SET description, amount, category, date,
updated_at WHERE id = eid` of `src/components/dashboard.tsx` lines
492-501. -/
def updateExpenseRow (exps : List Expense) (eid : String)
    (d : String) (a : ℚ) (c dt now : String) : List Expense :=
  exps.map (fun e =>
    if e.id = eid then
      { e with description := d, amount := a, category := c,
               date := dt, updated_at := now }
    else e)

/-- `EditExpenseDialog.handleSubmit` (`src/components/dashboard.tsx` lines
474-537): reject `NaN` or non-positive amounts (lines 480-488); update the
expense row (lines 492-501); then, only when `expenseAmount !==
expense.amount` (line 506), rescale every client-held split by `ratio =
expenseAmount / expense.amount` (lines 507-513, native division, no
rounding step), delete the existing split rows and insert the rescaled ones
(lines 516-523).  Committed amounts pass through the `DECIMAL(10,2)`
quantisation of the schema. -/
def editExpenseSubmit (st : LedgerState) (exp : ClientExpense)
    (newDescription : String) (amountField : Option ℚ)
    (newCategory newDate now : String) : LedgerState :=
  match amountField with
  | none => st
  | some expenseAmount =>
    if expenseAmount ≤ 0 then st
    else
      let st1 := { st with
        expenses := updateExpenseRow st.expenses exp.id newDescription
          (roundCent expenseAmount) newCategory newDate now }
      if expenseAmount = exp.amount then st1
      else
        let scale := expenseAmount / exp.amount
        let updatedSplits := exp.splits.map
          (fun s => SplitRow.mk exp.id s.1 (roundCent (s.2 * scale)))
        { st1 with
          expense_splits :=
            (st1.expense_splits.filter
              (fun s => decide (¬ s.expense_id = exp.id))) ++ updatedSplits }

/-- `ExpenseCard.handleDelete` (`src/components/expense-card.tsx` lines
46-66) issues `DELETE FROM expenses WHERE id = expense.id`; the
`ON DELETE CASCADE` clause of `expense_splits.expense_id`
(`src/scripts/001-create-tables.sql` line 49) removes the expense's split
rows with it. -/
def deleteExpense (st : LedgerState) (expenseId : String) : LedgerState :=
  { st with
    expenses := st.expenses.filter (fun e => decide (¬ e.id = expenseId)),
    expense_splits :=
      st.expense_splits.filter (fun s => decide (¬ s.expense_id = expenseId)) }

/-- `CreateGroupDialog.handleSubmit` (`src/components/add-expense-dialog.tsx`
concatenated file, lines 347-394): insert the group row, then insert the
creator's membership row; success path. -/
def createGroupSubmit (st : LedgerState) (name creatorId newGroupId : String) :
    LedgerState :=
  { st with
    groups := st.groups ++ [⟨newGroupId, name, creatorId⟩],
    group_members := st.group_members ++ [(newGroupId, creatorId)] }

/-- How one `AddMemberDialog.handleSubmit` run ended. -/
inductive AddMemberOutcome where
  | memberAdded
  | alreadyInGroup
  | insertError
deriving DecidableEq

/-- `AddMemberDialog.handleSubmit` (`src/unnamed/part_001` lines 30-108):
look the user up by email (lines 40-44); when absent, create a fresh user
row (lines 48-62) — this insert commits before anything else is checked;
then check for an existing `(group, user)` membership (lines 70-85) and
stop with a toast when present; otherwise insert the membership (lines
88-95), which the database rejects (foreign-key violation on `group_id`)
when the group row is absent. -/
def addMemberSubmit (st : LedgerState) (groupId email name newUserId : String) :
    LedgerState × AddMemberOutcome :=
  let resolved : String × List UserRow :=
    match st.users.find? (fun u => decide (u.email = email)) with
    | some u => (u.id, st.users)
    | none => (newUserId, st.users ++ [⟨newUserId, email, name⟩])
  let userId := resolved.1
  let st1 := { st with users := resolved.2 }
  if st1.group_members.any (fun m => decide (m.1 = groupId ∧ m.2 = userId)) then
    (st1, .alreadyInGroup)
  else if st1.groups.any (fun g => decide (g.id = groupId)) then
    ({ st1 with group_members := st1.group_members ++ [(groupId, userId)] },
     .memberAdded)
  else (st1, .insertError)

/-- The member ids of a group, read from the `group_members` table. -/
def groupMemberIds (st : LedgerState) (g : String) : List String :=
  (st.group_members.filter (fun m => decide (m.1 = g))).map Prod.snd

/-- The sum of `calculate_user_balance` over a group's members. -/
def sumMemberBalances (st : LedgerState) (g : String) : ℚ :=
  ((groupMemberIds st g).map (fun u => calculate_user_balance st u g)).sum

/-- The committed split rows of one expense. -/
def splitsOf (st : LedgerState) (eid : String) : List SplitRow :=
  st.expense_splits.filter (fun s => decide (s.expense_id = eid))

/-- The sum of the committed split amounts of one expense. -/
def splitsSumOf (st : LedgerState) (eid : String) : ℚ :=
  ((splitsOf st eid).map SplitRow.amount).sum

/-- The committed amount of one expense (0 when absent). -/
def amountOf (st : LedgerState) (eid : String) : ℚ :=
  ((st.expenses.find? (fun e => decide (e.id = eid))).map Expense.amount).getD 0

/-- Modelled from the spec (§4.2): Equal-mode splitting in minor units.
`base = total div N`, `R = total mod N`; participant `i` (0-based, in the
given order) receives `base + 1` when `i < R` and `base` otherwise. -/
def specEqualSplit (total : ℤ) (n : ℕ) : List ℤ :=
  (List.range n).map
    (fun i => total / (n : ℤ) + if (i : ℤ) < total % (n : ℤ) then 1 else 0)

/-! ### Shared lemmas -/

theorem filter_key_nil_of_not_mem (exps : List Expense) (eid : String)
    (h : eid ∉ exps.map Expense.id) :
    exps.filter (fun e => decide (e.id = eid)) = [] := by
  rw [List.filter_eq_nil_iff]
  intro e he hdec
  exact h (List.mem_map.mpr ⟨e, he, by simpa using hdec⟩)

theorem head_sum (exps : List Expense) (s : SplitRow) (u g : String)
    (hnd : (exps.map Expense.id).Nodup) :
    ((((exps.filter (fun e => decide (e.id = s.expense_id))).map
        (fun e => (s, e))).filter
      (fun r => decide (r.1.user_id = u ∧ r.2.group_id = g))).map
        (fun r => r.1.amount)).sum
    = if s.user_id = u ∧ expenseGroupOf exps s.expense_id = some g
      then s.amount else 0 := by
  induction exps with
  | nil => simp [expenseGroupOf]
  | cons e rest ih =>
    rw [List.map_cons] at hnd
    by_cases he : e.id = s.expense_id
    · have hrest : rest.filter (fun x => decide (x.id = s.expense_id)) = [] := by
        apply filter_key_nil_of_not_mem
        intro hmem
        exact (List.nodup_cons.mp hnd).1 (he ▸ hmem)
      rw [List.filter_cons_of_pos (by simpa using he), hrest]
      unfold expenseGroupOf
      rw [List.find?_cons_of_pos _ (by simpa using he)]
      by_cases hc : s.user_id = u ∧ e.group_id = g
      · rw [List.map_cons, List.map_nil,
          List.filter_cons_of_pos (by simpa using hc)]
        simp [hc]
      · rw [List.map_cons, List.map_nil,
          List.filter_cons_of_neg (by simpa using hc)]
        simp only [List.filter_nil, List.map_nil, List.sum_nil, Option.map_some]
        rw [if_neg]
        · rintro ⟨h1, h2⟩
          exact hc ⟨h1, by simpa using h2⟩
    · rw [List.filter_cons_of_neg (by simpa using he)]
      unfold expenseGroupOf
      rw [List.find?_cons_of_neg _ (by simpa using he)]
      exact ih (List.nodup_cons.mp hnd).2

theorem owed_eq (splits : List SplitRow) (exps : List Expense) (u g : String)
    (hnd : (exps.map Expense.id).Nodup) :
    (((sqlJoin splits exps).filter
        (fun r => decide (r.1.user_id = u ∧ r.2.group_id = g))).map
      (fun r => r.1.amount)).sum
    = ((splits.filter
        (fun s => decide (s.user_id = u ∧ expenseGroupOf exps s.expense_id = some g))).map
      SplitRow.amount).sum := by
  induction splits with
  | nil => simp [sqlJoin]
  | cons s rest ih =>
    have hjoin : sqlJoin (s :: rest) exps
        = ((exps.filter (fun e => decide (e.id = s.expense_id))).map
            (fun e => (s, e))) ++ sqlJoin rest exps := by
      simp [sqlJoin]
    rw [hjoin, List.filter_append, List.map_append, List.sum_append,
      head_sum exps s u g hnd, ih]
    by_cases hc : s.user_id = u ∧ expenseGroupOf exps s.expense_id = some g
    · rw [if_pos hc, List.filter_cons_of_pos (by simpa using hc), List.map_cons,
        List.sum_cons]
    · rw [if_neg hc, List.filter_cons_of_neg (by simpa using hc), zero_add]

/-! ### Concrete scenario states -/

/-- Three registered users. -/
def demoUsers : List UserRow :=
  [⟨"A", "a@x", "Alice"⟩, ⟨"B", "b@x", "Bob"⟩, ⟨"C", "c@x", "Carol"⟩]

/-- Initial committed state: three users, nothing else. -/
def demoLedger0 : LedgerState := ⟨demoUsers, [], [], [], []⟩

/-- State after `CreateGroupDialog.handleSubmit`: group `g` created by `A`,
who is auto-enrolled. -/
def demoGroupLedger : LedgerState := createGroupSubmit demoLedger0 "trip" "A" "g"

/-- An equal-mode submission: ₹100.00 paid by `A`, split among three. -/
def demoEqualInput : AddExpenseInput :=
  ⟨"g", "A", "dinner", "food", "2024-01-01", some 100, .equal,
   ["A", "B", "C"], fun _ => none⟩

/-- The committed result of the equal-mode submission, both inserts
succeeding. -/
def demoEqualRun : LedgerState × AddExpenseOutcome :=
  addExpenseSubmit demoGroupLedger demoEqualInput "e1" "t0" false false

/-- A custom-mode submission: total ₹10.01, sole participant `A` declaring
₹10.00. -/
def demoCustomInput : AddExpenseInput :=
  ⟨"g", "A", "coffee", "general", "2024-01-01", some (1001/100), .custom,
   ["A"], fun x => if x = "A" then some 10 else none⟩

/-- The committed result of the custom-mode submission, both inserts
succeeding. -/
def demoCustomRun : LedgerState × AddExpenseOutcome :=
  addExpenseSubmit demoGroupLedger demoCustomInput "e2" "t0" false false

/-- A custom-mode submission where selected member `B` entered nothing:
total ₹10.00, `A` declaring ₹10.00, `B`'s entry missing. -/
def demoZeroInput : AddExpenseInput :=
  ⟨"g", "A", "tea", "general", "2024-01-01", some 10, .custom,
   ["A", "B"], fun x => if x = "A" then some 10 else none⟩

/-- The equal-mode submission again, with the split insert failing. -/
def demoFailRun : LedgerState × AddExpenseOutcome :=
  addExpenseSubmit demoGroupLedger demoEqualInput "e9" "t0" false true

/-- A committed state holding one ₹100.00 expense split
₹33.34/₹33.33/₹33.33 over three group members. -/
def demoEditLedger : LedgerState :=
  ⟨demoUsers, [⟨"g", "trip", "A"⟩], [("g", "A"), ("g", "B"), ("g", "C")],
   [⟨"e1", "g", "A", "dinner", 100, "food", "2024-01-01", "t0"⟩],
   [⟨"e1", "A", 3334/100⟩, ⟨"e1", "B", 3333/100⟩, ⟨"e1", "C", 3333/100⟩]⟩

/-- The client-side copy of that expense held by `EditExpenseDialog`. -/
def demoEditClient : ClientExpense :=
  ⟨"e1", "dinner", 100, "food", "2024-01-01",
   [("A", 3334/100), ("B", 3333/100), ("C", 3333/100)]⟩

/-- The committed state after editing the amount from ₹100.00 to
₹100.01. -/
def demoEditResult : LedgerState :=
  editExpenseSubmit demoEditLedger demoEditClient "dinner"
    (some (10001/100)) "food" "2024-01-01" "t1"

/-- The `AddMemberDialog` run on `demoGroupLedger` with an email no user
has. -/
def demoMemberRun : LedgerState × AddMemberOutcome :=
  addMemberSubmit demoGroupLedger "g" "x@x" "Xeno" "u9"

/-! ### Claim theorems -/

/-- Claim C5 (confirmed): for every committed state whose expense ids are
unique (the `expenses.id` primary key) and every `(user, group)`, the
`calculate_user_balance` SQL function computes exactly
`Σ(amount of expenses where paidBy == user, group == group) − Σ(amount of
splits where user == user, expense.group == group)`. -/
theorem calculate_user_balance_eq_balanceSpec (st : LedgerState)
    (hnd : (st.expenses.map Expense.id).Nodup) (u g : String) :
    calculate_user_balance st u g = balanceSpec st u g := by
  unfold calculate_user_balance balanceSpec
  rw [owed_eq st.expense_splits st.expenses u g hnd]

/-- Witness for C5: the balance formula agreement evaluated on the state
holding the edited ₹100.01 expense, for user `A` in group `g`. -/
theorem calculate_user_balance_eq_balanceSpec_witness :
    (demoEditResult.expenses.map Expense.id).Nodup ∧
    calculate_user_balance demoEditResult "A" "g"
      = balanceSpec demoEditResult "A" "g" :=
  ⟨by with_unfolding_all decide,
   calculate_user_balance_eq_balanceSpec demoEditResult
     (by with_unfolding_all decide) "A" "g"⟩

/-- Claim C1 (code_bug): the claimed edit algorithm — minor-unit rational
rescaling with the largest-remainder rounding rule, keeping
`sum(splits) == amount` after every committed edit — is violated by
`EditExpenseDialog.handleSubmit`, which rescales with native division and
no remainder redistribution: editing the ₹100.00 expense (splits
₹33.34/₹33.33/₹33.33) to ₹100.01 commits splits summing to ₹100.00 while
the committed amount is ₹100.01. -/
theorem edit_rescale_breaks_sum_invariant :
    splitsSumOf demoEditResult "e1" = 100 ∧
    amountOf demoEditResult "e1" = 10001/100 ∧
    splitsSumOf demoEditResult "e1" ≠ amountOf demoEditResult "e1" := by
  refine ⟨by with_unfolding_all rfl, by with_unfolding_all rfl, ?_⟩
  have h1 : splitsSumOf demoEditResult "e1" = 100 := by with_unfolding_all rfl
  have h2 : amountOf demoEditResult "e1" = 10001/100 := by with_unfolding_all rfl
  rw [h1, h2]
  norm_num

/-- Claim C2 (code_bug): the claimed Equal-mode rule — `base = total div N`
plus one extra minor unit for the first `total mod N` participants, summing
exactly — is violated by `AddExpenseDialog.handleSubmit`, which gives every
participant `total / N` by native division: for ₹100.00 over three members
the committed splits are ₹33.33 each, summing to ₹99.99 ≠ ₹100.00, where
the claimed rule gives minor units `[3334, 3333, 3333]`. -/
theorem equal_split_not_largest_remainder :
    demoEqualRun.2 = .added ∧
    splitsSumOf demoEqualRun.1 "e1" = 9999/100 ∧
    amountOf demoEqualRun.1 "e1" = 100 ∧
    splitsSumOf demoEqualRun.1 "e1" ≠ amountOf demoEqualRun.1 "e1" ∧
    specEqualSplit 10000 3 = [3334, 3333, 3333] := by
  refine ⟨by with_unfolding_all rfl, by with_unfolding_all rfl,
    by with_unfolding_all rfl, ?_, by with_unfolding_all rfl⟩
  have h1 : splitsSumOf demoEqualRun.1 "e1" = 9999/100 := by
    with_unfolding_all rfl
  have h2 : amountOf demoEqualRun.1 "e1" = 100 := by with_unfolding_all rfl
  rw [h1, h2]
  norm_num

/-- Counterexample to claim C3: a non-zero mismatch of exactly ₹0.01
(total ₹10.01, declared sum ₹10.00) is accepted by
`AddExpenseDialog.handleSubmit` and the expense and its splits are
written, though the claim says any non-zero mismatch fails with nothing
written. -/
theorem custom_mismatch_within_tolerance_accepted :
    demoCustomRun.2 = .added ∧
    amountOf demoCustomRun.1 "e2" = 1001/100 ∧
    splitsSumOf demoCustomRun.1 "e2" = 10 ∧
    splitsSumOf demoCustomRun.1 "e2" ≠ amountOf demoCustomRun.1 "e2" := by
  refine ⟨by with_unfolding_all rfl, by with_unfolding_all rfl,
    by with_unfolding_all rfl, ?_⟩
  have h1 : splitsSumOf demoCustomRun.1 "e2" = 10 := by with_unfolding_all rfl
  have h2 : amountOf demoCustomRun.1 "e2" = 1001/100 := by with_unfolding_all rfl
  rw [h1, h2]
  norm_num

/-- Claim C3 as amended (corrected): with a parseable positive amount,
Custom-mode splitting succeeds if and only if
`|sum(declared) − total| ≤ 0.01` — a one-currency-unit tolerance window,
not exact equality — and when the mismatch exceeds the window the run
fails before anything is written. -/
theorem custom_split_tolerance_iff (st : LedgerState) (inp : AddExpenseInput)
    (nid now : String) (a : ℚ)
    (hmode : inp.splitType = .custom)
    (hamt : inp.amountField = some a) (hpos : 0 < a) :
    ((addExpenseSubmit st inp nid now false false).2 = .added ↔
      |customTotal inp.selectedMembers inp.customSplits - a| ≤ 1/100) ∧
    ((addExpenseSubmit st inp nid now false false).2 ≠ .added →
      (addExpenseSubmit st inp nid now false false).1 = st) := by
  unfold addExpenseSubmit
  rw [hamt, hmode]
  simp only [if_neg (not_le.mpr hpos)]
  by_cases htol : |customTotal inp.selectedMembers inp.customSplits - a| > 1/100
  · rw [if_pos htol]
    refine ⟨⟨fun h => by simp at h, fun h => absurd htol (not_lt.mpr h)⟩, fun _ => rfl⟩
  · rw [if_neg htol]
    exact ⟨⟨fun _ => not_lt.mp htol, fun _ => rfl⟩, fun h => absurd rfl h⟩

/-- Witness for the amended C3: on the ₹10.01-total, ₹10.00-declared
submission the hypotheses hold and the tolerance-window characterisation
follows. -/
theorem custom_split_tolerance_iff_witness :
    demoCustomInput.splitType = .custom ∧
    demoCustomInput.amountField = some (1001/100) ∧
    (0 : ℚ) < 1001/100 ∧
    (((addExpenseSubmit demoGroupLedger demoCustomInput "e2" "t0" false false).2
        = .added ↔
      |customTotal demoCustomInput.selectedMembers demoCustomInput.customSplits
        - 1001/100| ≤ 1/100) ∧
     ((addExpenseSubmit demoGroupLedger demoCustomInput "e2" "t0" false false).2
        ≠ .added →
      (addExpenseSubmit demoGroupLedger demoCustomInput "e2" "t0" false false).1
        = demoGroupLedger)) :=
  ⟨rfl, rfl, by norm_num,
   custom_split_tolerance_iff demoGroupLedger demoCustomInput "e2" "t0"
     (1001/100) rfl rfl (by norm_num)⟩

/-- Claim C4 (code_bug): the claimed atomicity of recording an expense is
violated: `AddExpenseDialog.handleSubmit` inserts the expense row and the
split rows in two separate store calls with no transaction, so when the
split insert fails the already committed expense row stays behind — an
expense observable with zero splits. -/
theorem splits_insert_failure_leaves_partial_expense :
    demoFailRun.2 = .splitsInsertError ∧
    demoFailRun.1.expenses.any (fun e => decide (e.id = "e9")) = true ∧
    splitsOf demoFailRun.1 "e9" = [] := by
  exact ⟨by with_unfolding_all rfl, by with_unfolding_all rfl,
    by with_unfolding_all rfl⟩

/-- Claim C6 (code_bug): the conservation invariant — the member balances
of a group sum to zero in every reachable committed state — is violated:
starting from three users, creating group `g` (creator `A` auto-enrolled)
and committing the accepted custom expense of total ₹10.01 with declared
splits summing to ₹10.00 yields member balances summing to ₹0.01. -/
theorem conservation_invariant_violated :
    demoCustomRun.2 = .added ∧
    sumMemberBalances demoCustomRun.1 "g" = 1/100 ∧
    sumMemberBalances demoCustomRun.1 "g" ≠ 0 := by
  refine ⟨by with_unfolding_all rfl, by with_unfolding_all rfl, ?_⟩
  have h : sumMemberBalances demoCustomRun.1 "g" = 1/100 := by
    with_unfolding_all rfl
  rw [h]
  norm_num

/-- Counterexample to claim C7: `AddMemberDialog.handleSubmit` does not
fail with `NotFound` when the user is absent — run on a state where no
user has the email, it creates the user and succeeds, committing the
membership. -/
theorem addMember_absent_user_succeeds :
    demoGroupLedger.users.all (fun u => decide (¬ u.email = "x@x")) = true ∧
    demoMemberRun.2 = .memberAdded ∧
    demoMemberRun.1.users =
      demoUsers ++ [⟨"u9", "x@x", "Xeno"⟩] ∧
    demoMemberRun.1.group_members = [("g", "A"), ("g", "u9")] := by
  exact ⟨by with_unfolding_all rfl, by with_unfolding_all rfl,
    by with_unfolding_all rfl, by with_unfolding_all rfl⟩

/-- The user id `AddMemberDialog.handleSubmit` resolves for an email: the
existing user's id when the email lookup hits, the freshly created user's
id otherwise. -/
def resolvedUserId (st : LedgerState) (email newUserId : String) : String :=
  match st.users.find? (fun u => decide (u.email = email)) with
  | some u => u.id
  | none => newUserId

theorem any_pair_eq_mem (l : List (String × String)) (g u : String) :
    l.any (fun m => decide (m.1 = g ∧ m.2 = u)) = true ↔ (g, u) ∈ l := by
  rw [List.any_eq_true]
  constructor
  · rintro ⟨m, hm, hdec⟩
    obtain ⟨h1, h2⟩ := of_decide_eq_true hdec
    have hme : m = (g, u) := by
      cases m
      simp_all
    rwa [hme] at hm
  · intro h
    exact ⟨(g, u), h, by simp⟩

/-- Claim C7 as amended (corrected): `addMember` reports the
already-a-member condition exactly when the `(group, user)` membership
row exists for the resolved user; when the email matches no user it does
not fail — it creates the user and proceeds; on success it appends exactly
one membership row whose pair was not present before, so membership
uniqueness per `(group, user)` is preserved. -/
theorem addMember_amended (st : LedgerState) (groupId email nm nid : String) :
    ((addMemberSubmit st groupId email nm nid).2 = .alreadyInGroup ↔
      (groupId, resolvedUserId st email nid) ∈ st.group_members) ∧
    ((addMemberSubmit st groupId email nm nid).2 = .memberAdded →
      (addMemberSubmit st groupId email nm nid).1.group_members
        = st.group_members ++ [(groupId, resolvedUserId st email nid)] ∧
      (groupId, resolvedUserId st email nid) ∉ st.group_members) ∧
    (st.group_members.Nodup →
      (addMemberSubmit st groupId email nm nid).1.group_members.Nodup) := by
  unfold addMemberSubmit resolvedUserId
  cases hfind : st.users.find? (fun u => decide (u.email = email)) with
  | none =>
    simp only
    by_cases hmem : (groupId, nid) ∈ st.group_members
    · rw [if_pos ((any_pair_eq_mem _ _ _).mpr hmem)]
      exact ⟨⟨fun _ => hmem, fun _ => rfl⟩,
        fun h => by simp at h, fun hnd => hnd⟩
    · rw [if_neg (fun hx => hmem ((any_pair_eq_mem _ _ _).mp hx))]
      by_cases hg : st.groups.any (fun g => decide (g.id = groupId)) = true
      · rw [if_pos hg]
        refine ⟨⟨fun h => by simp at h, fun h => absurd h hmem⟩,
          fun _ => ⟨rfl, hmem⟩, fun hnd => ?_⟩
        rw [List.nodup_append]
        exact ⟨hnd, List.nodup_singleton _,
          by simpa [List.disjoint_singleton] using hmem⟩
      · rw [if_neg hg]
        exact ⟨⟨fun h => by simp at h, fun h => absurd h hmem⟩,
          fun h => by simp at h, fun hnd => hnd⟩
  | some u =>
    simp only
    by_cases hmem : (groupId, u.id) ∈ st.group_members
    · rw [if_pos ((any_pair_eq_mem _ _ _).mpr hmem)]
      exact ⟨⟨fun _ => hmem, fun _ => rfl⟩,
        fun h => by simp at h, fun hnd => hnd⟩
    · rw [if_neg (fun hx => hmem ((any_pair_eq_mem _ _ _).mp hx))]
      by_cases hg : st.groups.any (fun g => decide (g.id = groupId)) = true
      · rw [if_pos hg]
        refine ⟨⟨fun h => by simp at h, fun h => absurd h hmem⟩,
          fun _ => ⟨rfl, hmem⟩, fun hnd => ?_⟩
        rw [List.nodup_append]
        exact ⟨hnd, List.nodup_singleton _,
          by simpa [List.disjoint_singleton] using hmem⟩
      · rw [if_neg hg]
        exact ⟨⟨fun h => by simp at h, fun h => absurd h hmem⟩,
          fun h => by simp at h, fun hnd => hnd⟩

/-- Witness for the amended C7: the characterisation evaluated on the
demo group state for an email no user has. -/
theorem addMember_amended_witness :
    ((addMemberSubmit demoGroupLedger "g" "x@x" "Xeno" "u9").2
        = .alreadyInGroup ↔
      ("g", resolvedUserId demoGroupLedger "x@x" "u9")
        ∈ demoGroupLedger.group_members) ∧
    ((addMemberSubmit demoGroupLedger "g" "x@x" "Xeno" "u9").2
        = .memberAdded →
      (addMemberSubmit demoGroupLedger "g" "x@x" "Xeno" "u9").1.group_members
        = demoGroupLedger.group_members ++
            [("g", resolvedUserId demoGroupLedger "x@x" "u9")] ∧
      ("g", resolvedUserId demoGroupLedger "x@x" "u9")
        ∉ demoGroupLedger.group_members) ∧
    (demoGroupLedger.group_members.Nodup →
      (addMemberSubmit demoGroupLedger "g" "x@x" "Xeno" "u9").1.group_members.Nodup) :=
  addMember_amended demoGroupLedger "g" "x@x" "Xeno" "u9"

theorem deleteExpense_of_fresh (st : LedgerState) (nid : String)
    (h1 : ∀ e ∈ st.expenses, e.id ≠ nid)
    (h2 : ∀ s ∈ st.expense_splits, s.expense_id ≠ nid) :
    deleteExpense st nid = st := by
  obtain ⟨us, gs, gm, ex, sp⟩ := st
  unfold deleteExpense
  simp only [LedgerState.mk.injEq, true_and]
  constructor
  · exact List.filter_eq_self.mpr (fun e he => by simpa using h1 e he)
  · exact List.filter_eq_self.mpr (fun s hs => by simpa using h2 s hs)

theorem deleteExpense_expense_only (st : LedgerState) (nid : String)
    (newE : Expense)
    (h1 : ∀ e ∈ st.expenses, e.id ≠ nid)
    (h2 : ∀ s ∈ st.expense_splits, s.expense_id ≠ nid)
    (hE : newE.id = nid) :
    deleteExpense { st with expenses := st.expenses ++ [newE] } nid = st := by
  obtain ⟨us, gs, gm, ex, sp⟩ := st
  unfold deleteExpense
  simp only [LedgerState.mk.injEq, true_and]
  refine ⟨?_, List.filter_eq_self.mpr (fun s hs => by simpa using h2 s hs)⟩
  rw [List.filter_append, List.filter_eq_self.mpr (fun e he => by simpa using h1 e he)]
  have : List.filter (fun e => decide (¬ e.id = nid)) [newE] = [] := by
    rw [List.filter_eq_nil_iff]
    intro e he
    rw [List.mem_singleton] at he
    subst he
    simp [hE]
  rw [this, List.append_nil]

theorem deleteExpense_both_appended (st : LedgerState) (nid : String)
    (newE : Expense) (rows : List SplitRow)
    (h1 : ∀ e ∈ st.expenses, e.id ≠ nid)
    (h2 : ∀ s ∈ st.expense_splits, s.expense_id ≠ nid)
    (hE : newE.id = nid) (hR : ∀ r ∈ rows, r.expense_id = nid) :
    deleteExpense { st with expenses := st.expenses ++ [newE],
                            expense_splits := st.expense_splits ++ rows } nid
      = st := by
  obtain ⟨us, gs, gm, ex, sp⟩ := st
  unfold deleteExpense
  simp only [LedgerState.mk.injEq, true_and]
  constructor
  · rw [List.filter_append,
      List.filter_eq_self.mpr (fun e he => by simpa using h1 e he)]
    have : List.filter (fun e => decide (¬ e.id = nid)) [newE] = [] := by
      rw [List.filter_eq_nil_iff]
      intro e he
      rw [List.mem_singleton] at he
      subst he
      simp [hE]
    rw [this, List.append_nil]
  · rw [List.filter_append,
      List.filter_eq_self.mpr (fun s hs => by simpa using h2 s hs)]
    have : List.filter (fun s => decide (¬ s.expense_id = nid)) rows = [] := by
      rw [List.filter_eq_nil_iff]
      intro r hr
      simp [hR r hr]
    rw [this, List.append_nil]

theorem addExpense_then_delete_eq (st : LedgerState) (inp : AddExpenseInput)
    (nid now : String) (ef sf : Bool)
    (h1 : ∀ e ∈ st.expenses, e.id ≠ nid)
    (h2 : ∀ s ∈ st.expense_splits, s.expense_id ≠ nid) :
    deleteExpense (addExpenseSubmit st inp nid now ef sf).1 nid = st := by
  unfold addExpenseSubmit
  cases inp.amountField with
  | none => exact deleteExpense_of_fresh st nid h1 h2
  | some a =>
    simp only
    split
    · exact deleteExpense_of_fresh st nid h1 h2
    · split
      · exact deleteExpense_of_fresh st nid h1 h2
      · split
        · exact deleteExpense_of_fresh st nid h1 h2
        · split
          · exact deleteExpense_expense_only st nid _ h1 h2 rfl
          · refine deleteExpense_both_appended st nid _ _ h1 h2 rfl ?_
            intro r hr
            rw [List.mem_map] at hr
            obtain ⟨p, _, hp⟩ := hr
            rw [← hp]

/-- Claim C8 (confirmed): recording an expense under a fresh id and then
deleting it (the `DELETE FROM expenses` of `ExpenseCard.handleDelete`
together with the `ON DELETE CASCADE` removal of its split rows) restores
every user's balance in every group to exactly its prior value — whichever
way the record attempt ended. -/
theorem record_then_delete_round_trip (st : LedgerState)
    (inp : AddExpenseInput) (nid now : String) (ef sf : Bool)
    (h1 : ∀ e ∈ st.expenses, e.id ≠ nid)
    (h2 : ∀ s ∈ st.expense_splits, s.expense_id ≠ nid)
    (u g : String) :
    calculate_user_balance
        (deleteExpense (addExpenseSubmit st inp nid now ef sf).1 nid) u g
      = calculate_user_balance st u g := by
  rw [addExpense_then_delete_eq st inp nid now ef sf h1 h2]

/-- Witness for C8: recording the equal-mode ₹100.00 expense under fresh
id `e7` and deleting it leaves `A`'s balance in `g` exactly as before. -/
theorem record_then_delete_round_trip_witness :
    (∀ e ∈ demoGroupLedger.expenses, e.id ≠ "e7") ∧
    (∀ s ∈ demoGroupLedger.expense_splits, s.expense_id ≠ "e7") ∧
    calculate_user_balance
        (deleteExpense
          (addExpenseSubmit demoGroupLedger demoEqualInput "e7" "t0"
            false false).1 "e7") "A" "g"
      = calculate_user_balance demoGroupLedger "A" "g" :=
  ⟨by with_unfolding_all decide, by with_unfolding_all decide,
   record_then_delete_round_trip demoGroupLedger demoEqualInput "e7" "t0"
     false false (by with_unfolding_all decide) (by with_unfolding_all decide)
     "A" "g"⟩

/-- Claim C9 (confirmed): when the submitted amount equals the expense's
stored amount (with the stored copy in sync and representable in cents,
as `DECIMAL(10,2)` guarantees), `EditExpenseDialog.handleSubmit` leaves
the split table completely unchanged, rewrites only the expense row's
description, category, date and updated_at, and every expense row's
amount value is unchanged. -/
theorem edit_same_amount_preserves_splits (st : LedgerState)
    (ce : ClientExpense) (d c dt now : String) (a : ℚ)
    (hsame : a = ce.amount) (hpos : 0 < a)
    (hcent : roundCent ce.amount = ce.amount)
    (hsync : ∀ e ∈ st.expenses, e.id = ce.id → e.amount = ce.amount) :
    (editExpenseSubmit st ce d (some a) c dt now).expense_splits
        = st.expense_splits ∧
    (editExpenseSubmit st ce d (some a) c dt now).expenses
        = updateExpenseRow st.expenses ce.id d ce.amount c dt now ∧
    (editExpenseSubmit st ce d (some a) c dt now).expenses.map Expense.amount
        = st.expenses.map Expense.amount := by
  subst hsame
  unfold editExpenseSubmit
  simp only
  rw [if_neg (not_le.mpr hpos)]
  simp only [if_true]
  refine ⟨trivial, by rw [hcent], ?_⟩
  unfold updateExpenseRow
  rw [List.map_map]
  apply List.map_congr_left
  intro e he
  simp only [Function.comp_apply]
  by_cases hid : e.id = ce.id
  · rw [if_pos hid]
    show roundCent ce.amount = e.amount
    rw [hcent]
    exact (hsync e he hid).symm
  · rw [if_neg hid]

/-- Witness for C9: editing the stored ₹100.00 expense with the same
amount ₹100.00 leaves the split table and all amounts unchanged. -/
theorem edit_same_amount_preserves_splits_witness :
    (100 : ℚ) = demoEditClient.amount ∧
    (0 : ℚ) < 100 ∧
    roundCent demoEditClient.amount = demoEditClient.amount ∧
    (∀ e ∈ demoEditLedger.expenses,
      e.id = demoEditClient.id → e.amount = demoEditClient.amount) ∧
    ((editExpenseSubmit demoEditLedger demoEditClient "lunch" (some 100)
        "food" "2024-01-02" "t2").expense_splits
      = demoEditLedger.expense_splits ∧
     (editExpenseSubmit demoEditLedger demoEditClient "lunch" (some 100)
        "food" "2024-01-02" "t2").expenses
      = updateExpenseRow demoEditLedger.expenses demoEditClient.id "lunch"
          demoEditClient.amount "food" "2024-01-02" "t2" ∧
     (editExpenseSubmit demoEditLedger demoEditClient "lunch" (some 100)
        "food" "2024-01-02" "t2").expenses.map Expense.amount
      = demoEditLedger.expenses.map Expense.amount) :=
  ⟨by with_unfolding_all rfl, by norm_num, by with_unfolding_all rfl,
   by with_unfolding_all decide,
   edit_same_amount_preserves_splits demoEditLedger demoEditClient "lunch"
     "food" "2024-01-02" "t2" 100 (by with_unfolding_all rfl) (by norm_num)
     (by with_unfolding_all rfl) (by with_unfolding_all decide)⟩

/-- Claim C10 (confirmed): in Custom mode a selected member whose entry is
missing or unparseable is counted as declaring zero both in the validation
total and in the split rows, and on an accepted submission a split row of
amount 0 is committed for that member. -/
theorem custom_missing_entry_zero (st : LedgerState) (inp : AddExpenseInput)
    (nid now : String) (a : ℚ) (m : String)
    (hmode : inp.splitType = .custom)
    (hamt : inp.amountField = some a) (hpos : 0 < a)
    (hm : m ∈ inp.selectedMembers) (hnone : inp.customSplits m = none)
    (htol : |customTotal inp.selectedMembers inp.customSplits - a| ≤ 1/100) :
    (m, 0) ∈ customRows inp.selectedMembers inp.customSplits ∧
    customTotal inp.selectedMembers inp.customSplits
      = customTotal inp.selectedMembers
          (fun x => if x = m then some 0 else inp.customSplits x) ∧
    SplitRow.mk nid m 0
      ∈ (addExpenseSubmit st inp nid now false false).1.expense_splits := by
  have hmem : (m, 0) ∈ customRows inp.selectedMembers inp.customSplits := by
    unfold customRows
    refine List.mem_map.mpr ⟨m, hm, ?_⟩
    rw [hnone]
    rfl
  refine ⟨hmem, ?_, ?_⟩
  · unfold customTotal
    congr 1
    apply List.map_congr_left
    intro x hx
    by_cases hxm : x = m
    · subst hxm
      simp [parseOrZero, hnone]
    · simp [hxm]
  · have hrun : (addExpenseSubmit st inp nid now false false).1.expense_splits
        = st.expense_splits ++
          (customRows inp.selectedMembers inp.customSplits).map
            (fun p => SplitRow.mk nid p.1 (roundCent p.2)) := by
      unfold addExpenseSubmit
      rw [hamt, hmode]
      simp only
      rw [if_neg (not_le.mpr hpos), if_neg (not_lt.mpr htol)]
      rfl
    rw [hrun]
    apply List.mem_append_right
    refine List.mem_map.mpr ⟨(m, 0), hmem, ?_⟩
    have hz : roundCent 0 = 0 := by with_unfolding_all rfl
    simp [hz]

/-- Witness for C10: member `B` selected with no entry on an accepted
custom submission (total ₹10.00, `A` declaring ₹10.00) receives a
committed split row of amount 0. -/
theorem custom_missing_entry_zero_witness :
    demoZeroInput.splitType = .custom ∧
    demoZeroInput.amountField = some 10 ∧
    (0 : ℚ) < 10 ∧
    "B" ∈ demoZeroInput.selectedMembers ∧
    demoZeroInput.customSplits "B" = none ∧
    |customTotal demoZeroInput.selectedMembers demoZeroInput.customSplits
      - 10| ≤ 1/100 ∧
    SplitRow.mk "e3" "B" 0
      ∈ (addExpenseSubmit demoGroupLedger demoZeroInput "e3" "t0"
          false false).1.expense_splits :=
  ⟨rfl, rfl, by norm_num, by with_unfolding_all decide, by with_unfolding_all rfl,
   by with_unfolding_all decide,
   (custom_missing_entry_zero demoGroupLedger demoZeroInput "e3" "t0" 10 "B"
     rfl rfl (by norm_num) (by with_unfolding_all decide)
     (by with_unfolding_all rfl) (by with_unfolding_all decide)).2.2⟩

end Transact
